import Mathlib

/- A shallow embedding of the relationship-graph, feed-composition,
   reaction and notification logic of the lsmedia backend
   (Route/friendshipRoute.js, the posts router timelines,
   the like router, services/notificationService.js,
   services/sponsoredScheduler.js), together with proofs of the
   behavioural properties stated about them.

   Ids (cuid strings in the schema) are modelled as Nat; timestamps as
   Nat; the relational tables as lists of rows.  Row fields that no
   modelled operation reads (denormalised names, media, timestamps that
   are only echoed back) are omitted. -/

namespace LsMedia

/-- Status enum of the prisma schema (used by BoostedPost, Sponsored and
PageMember). -/
inductive Status
  | pending | accepted | rejected | expired
deriving DecidableEq, Repr

/-- PostType enum of the prisma schema. -/
inductive PostType
  | user | page
deriving DecidableEq, Repr

/-- ReactionType enum of the prisma schema. -/
inductive ReactionType
  | LIKE | LOVE | HAHA | WOW | SAD | ANGRY
deriving DecidableEq, Repr

/-- NotificationType enum of the prisma schema. -/
inductive NType
  | like | comment | follow | friend_request | friend_accept
  | page_follow | page_like | mention
deriving DecidableEq, Repr

/-- User row (prisma model User).  deletedAt is the soft-delete marker
added by the add_soft_delete_system migration; none means alive. -/
structure User where
  id : Nat
  deletedAt : Option Nat := none
deriving DecidableEq, Repr

/-- Page row (prisma model Page). -/
structure Page where
  id : Nat
  ownerId : Nat
  deletedAt : Option Nat := none
deriving DecidableEq, Repr

/-- Post row (prisma model Post): authorId and pageId are optional in the
schema. -/
structure Post where
  id : Nat
  authorId : Option Nat
  pageId : Option Nat := none
  ptype : PostType
  createdAt : Nat := 0
  deletedAt : Option Nat := none
deriving DecidableEq, Repr

/-- BoostedPost row (prisma model BoostedPost). -/
structure BoostedPost where
  id : Nat
  postId : Nat
  status : Status
  endDate : Option Nat := none
deriving DecidableEq, Repr

/-- Sponsored row (prisma model Sponsored), a distinct table from
BoostedPost: its status field is named isActive. -/
structure Sponsored where
  id : Nat
  isActive : Status
  endDate : Option Nat := none
deriving DecidableEq, Repr

/-- PageFollower row (prisma model PageFollower), unique per
(userId, pageId). -/
structure PageFollower where
  userId : Nat
  pageId : Nat
deriving DecidableEq, Repr

/-- PageMember row (prisma model PageMember); the role field is not read
by any modelled operation and is omitted. -/
structure PageMember where
  userId : Nat
  pageId : Nat
  status : Status
deriving DecidableEq, Repr

/-- Reaction row (prisma model Reaction), unique per (userId, postId). -/
structure Reaction where
  userId : Nat
  postId : Nat
  rtype : ReactionType
deriving DecidableEq, Repr

/-- Friendship row (prisma model Friendship).  The status column is a
String in the schema; the routes compare it with the literals
"pending" and "accepted". -/
structure Friendship where
  id : Nat
  userAId : Nat
  userBId : Nat
  status : String
deriving DecidableEq, Repr

/-- Follower row (prisma model Follower): a directed follow edge, unique
per (followerId, followingId).  Its deletedAt column is never written by
any route (the relationship routes hard-create and hard-delete these
rows), so presence in the table coincides with being alive. -/
structure Follower where
  followerId : Nat
  followingId : Nat
deriving DecidableEq, Repr

/-- Notification row (prisma model Notification); the denormalised
title/content strings are omitted, recipient, sender, type and entity
references are kept. -/
structure Notification where
  userId : Nat
  senderId : Option Nat
  ntype : NType
  postId : Option Nat := none
  pageId : Option Nat := none
deriving DecidableEq, Repr

/-- The relational store: one list per table, in insertion order (prisma
findFirst/findUnique scan semantics are modelled by List.find?).
nextId supplies fresh primary keys for created Friendship rows. -/
structure DB where
  users : List User := []
  pages : List Page := []
  posts : List Post := []
  follows : List Follower := []
  friendships : List Friendship := []
  pageFollowers : List PageFollower := []
  pageMembers : List PageMember := []
  reactions : List Reaction := []
  boostedPosts : List BoostedPost := []
  sponsored : List Sponsored := []
  notifs : List Notification := []
  nextId : Nat := 0
deriving DecidableEq, Repr

/-! ### Table-level helpers -/

/-- prisma user.findUnique({where:{id}}) truthiness: the user row exists
(no deletedAt filter is applied by the friendship route checks). -/
def userExists (db : DB) (uid : Nat) : Bool :=
  db.users.any (fun u => u.id == uid)

/-- prisma follower.findUnique on the (followerId, followingId) unique
key, as a truthiness test. -/
def hasEdge (l : List Follower) (a b : Nat) : Bool :=
  l.any (fun e => decide (e.followerId = a ∧ e.followingId = b))

/-- Guarded follower.create: create the edge only if the findUnique
check found none (the pattern used by the friendship route). -/
def ensureEdge (l : List Follower) (a b : Nat) : List Follower :=
  if hasEdge l a b then l else l ++ [⟨a, b⟩]

/-- follower.deleteMany({where:{followerId:a, followingId:b}}). -/
def removeEdge (l : List Follower) (a b : Nat) : List Follower :=
  l.filter (fun e => !(decide (e.followerId = a ∧ e.followingId = b)))

/-- The two-sided OR used by every friendship lookup:
{userAId:u, userBId:v} or {userAId:v, userBId:u}. -/
def pairB (u v : Nat) (f : Friendship) : Bool :=
  decide ((f.userAId = u ∧ f.userBId = v) ∨ (f.userAId = v ∧ f.userBId = u))

/-- friendship.update({where:{id}, data:{status}}). -/
def updStatus (l : List Friendship) (fid : Nat) (st : String) :
    List Friendship :=
  l.map (fun f => if f.id == fid then { f with status := st } else f)

/-- friendship.delete({where:{id}}). -/
def removeFid (l : List Friendship) (fid : Nat) : List Friendship :=
  l.filter (fun f => !(f.id == fid))

/-! ### Notification service (services/notificationService.js)

Each create function is modelled by the list of rows it appends; a
lookup failure inside the service (missing sender, missing recipient)
is caught and swallowed by the service, producing no row. -/

/-- createFriendRequestNotification(senderId, receiverId): skipped on
self, needs the sender row to render the title. -/
def friendRequestRows (db : DB) (senderId receiverId : Nat) :
    List Notification :=
  if senderId = receiverId then []
  else if userExists db senderId then
    [⟨receiverId, some senderId, NType.friend_request, none, none⟩]
  else []

/-- createFollowNotification(senderId, followedUserId). -/
def followRows (db : DB) (senderId followedUserId : Nat) :
    List Notification :=
  if senderId = followedUserId then []
  else if userExists db senderId then
    [⟨followedUserId, some senderId, NType.follow, none, none⟩]
  else []

/-- createFriendAcceptNotification(senderId, accepterId): the recipient
is senderId (the original requester), the notification sender is the
accepter. -/
def friendAcceptRows (db : DB) (senderId accepterId : Nat) :
    List Notification :=
  if senderId = accepterId then []
  else if userExists db accepterId then
    [⟨senderId, some accepterId, NType.friend_accept, none, none⟩]
  else []

/-- Recipient resolution of createLikeNotification:
post.type === "user" ? post.authorId : post.page?.ownerId. -/
def likeRecipient (db : DB) (post : Post) : Option Nat :=
  if post.ptype = PostType.user then post.authorId
  else post.pageId.bind (fun q =>
    (db.pages.find? (fun pg => pg.id == q)).map (fun pg => pg.ownerId))

/-- createLikeNotification(senderId, postId, type): looks the post up,
resolves the recipient, skips silently on self, otherwise appends one
row of type like (user post) or page_like (page post). -/
def likeRows (db : DB) (senderId postId : Nat) : List Notification :=
  match db.posts.find? (fun p => p.id == postId) with
  | none => []
  | some post =>
    match likeRecipient db post with
    | none => []
    | some rid =>
      if senderId = rid then []
      else if userExists db senderId then
        [⟨rid, some senderId,
          (if post.ptype = PostType.user then NType.like else NType.page_like),
          some postId, post.pageId⟩]
      else []

/-! ### Relationship Graph Manager (Route/friendshipRoute.js)

Every operation returns the HTTP status it answers with together with
the store state afterwards.  The parameter ff (follow failure) injects
a store failure into each follower.create call, to model the failure
behaviour of the surrounding transaction or try/catch: a create that is
actually attempted throws when ff is true. -/

/-- The create path of POST /request/:userId: one transaction creating
the pending Friendship (sender is always userA) and, if absent, the
FollowEdge sender to receiver; a failure rolls the whole transaction
back (500).  The friend_request and follow notifications are created
after the transaction commits. -/
def sendFriendRequestCreatePath (ff : Bool) (senderId receiverId : Nat)
    (db : DB) : Nat × DB :=
  if ff && !(hasEdge db.follows senderId receiverId) then (500, db)
  else
    (201, { db with
      friendships := db.friendships ++
        [⟨db.nextId, senderId, receiverId, "pending"⟩],
      nextId := db.nextId + 1,
      follows := ensureEdge db.follows senderId receiverId,
      notifs := db.notifs ++ friendRequestRows db senderId receiverId
        ++ followRows db senderId receiverId })

/-- POST /request/:userId.  Guards: self (400), receiver missing (404),
already accepted (400), same-direction pending (400).  An opposite
pending request is auto-accepted: the existing row is updated to
accepted (its own awaited call, not inside any transaction), then the
two missing FollowEdges are created inside a try/catch whose errors are
swallowed, then a friend_accept notification addressed to the original
requester is created and 200 is returned.  Otherwise the create path
runs. -/
def sendFriendRequest (ff : Bool) (senderId receiverId : Nat) (db : DB) :
    Nat × DB :=
  if senderId = receiverId then (400, db)
  else if !(userExists db receiverId) then (404, db)
  else
    match db.friendships.find? (pairB senderId receiverId) with
    | some ex =>
      if ex.status = "accepted" then (400, db)
      else if ex.status = "pending" then
        if ex.userAId = receiverId ∧ ex.userBId = senderId then
          (200, { db with
            friendships := updStatus db.friendships ex.id "accepted",
            follows :=
              if ff then db.follows
              else ensureEdge (ensureEdge db.follows senderId receiverId)
                receiverId senderId,
            notifs := db.notifs ++ friendAcceptRows db receiverId senderId })
        else (400, db)
      else sendFriendRequestCreatePath ff senderId receiverId db
    | none => sendFriendRequestCreatePath ff senderId receiverId db

/-- PUT /accept/:friendshipId: only the receiver (userB) of a pending
request may accept.  One transaction updates the status to accepted and
creates whichever of the two FollowEdges is missing; a failure rolls
everything back (500).  The friend_accept notification addressed to
userA is created after the transaction. -/
def acceptFriendRequest (ff : Bool) (fid actorId : Nat) (db : DB) :
    Nat × DB :=
  match db.friendships.find? (fun f => f.id == fid) with
  | none => (404, db)
  | some f =>
    if f.userBId ≠ actorId then (403, db)
    else if f.status ≠ "pending" then (400, db)
    else if ff && (!(hasEdge db.follows f.userAId f.userBId)
        || !(hasEdge db.follows f.userBId f.userAId)) then (500, db)
    else
      (200, { db with
        friendships := updStatus db.friendships fid "accepted",
        follows := ensureEdge (ensureEdge db.follows f.userAId f.userBId)
          f.userBId f.userAId,
        notifs := db.notifs ++ friendAcceptRows db f.userAId actorId })

/-- DELETE /unfriend/:userId: requires an accepted Friendship for the
pair; one transaction deletes the Friendship row and both FollowEdges
(deleteMany in each direction).  No notification. -/
def unfriend (currentId targetId : Nat) (db : DB) : Nat × DB :=
  if currentId = targetId then (400, db)
  else
    match db.friendships.find?
        (fun f => pairB currentId targetId f && f.status == "accepted") with
    | none => (404, db)
    | some f =>
      (200, { db with
        friendships := removeFid db.friendships f.id,
        follows := removeEdge (removeEdge db.follows currentId targetId)
          targetId currentId })

/-- DELETE /cancel/:friendshipId: only the sender (userA) of a pending
request may cancel; one transaction deletes the Friendship row and the
FollowEdge sender to receiver. -/
def cancelFriendRequest (fid actorId : Nat) (db : DB) : Nat × DB :=
  match db.friendships.find? (fun f => f.id == fid) with
  | none => (404, db)
  | some f =>
    if f.userAId ≠ actorId then (403, db)
    else if f.status ≠ "pending" then (400, db)
    else
      (200, { db with
        friendships := removeFid db.friendships fid,
        follows := removeEdge db.follows f.userAId f.userBId })

/-- DELETE /reject/:friendshipId: only the receiver (userB) of a pending
request may reject; the transaction deletes the Friendship row only and
explicitly leaves the follow relationship in place. -/
def rejectFriendRequest (fid actorId : Nat) (db : DB) : Nat × DB :=
  match db.friendships.find? (fun f => f.id == fid) with
  | none => (404, db)
  | some f =>
    if f.userBId ≠ actorId then (403, db)
    else if f.status ≠ "pending" then (400, db)
    else (200, { db with friendships := removeFid db.friendships fid })

/-- POST /follow/:userId: guards self (400), missing target (404),
already following (400).  One transaction creates the FollowEdge and,
when the target already follows the follower and no Friendship row of
any status exists for the pair, a Friendship created directly in the
accepted state.  Notifications (follow, and friend_accept on mutual
creation) are created after the transaction. -/
def followUser (ff : Bool) (followerId followingId : Nat) (db : DB) :
    Nat × DB :=
  if followerId = followingId then (400, db)
  else if !(userExists db followingId) then (404, db)
  else if hasEdge db.follows followerId followingId then (400, db)
  else
    if ff then (500, db)
    else
      let mkFriend := hasEdge db.follows followingId followerId
        && (db.friendships.find? (pairB followerId followingId)).isNone
      (201, { db with
        follows := db.follows ++ [⟨followerId, followingId⟩],
        friendships :=
          if mkFriend then db.friendships ++
            [⟨db.nextId, followerId, followingId, "accepted"⟩]
          else db.friendships,
        nextId := if mkFriend then db.nextId + 1 else db.nextId,
        notifs := db.notifs ++ followRows db followerId followingId
          ++ (if mkFriend then friendAcceptRows db followingId followerId
              else []) })

/-- DELETE /unfollow/:userId: guards self (400), not following (404).
One transaction deletes the FollowEdge and, if an accepted Friendship
exists for the pair, deletes that Friendship row too. -/
def unfollowUser (followerId followingId : Nat) (db : DB) : Nat × DB :=
  if followerId = followingId then (400, db)
  else if !(hasEdge db.follows followerId followingId) then (404, db)
  else
    match db.friendships.find?
        (fun f => pairB followerId followingId f
          && f.status == "accepted") with
    | some f =>
      (200, { db with
        follows := removeEdge db.follows followerId followingId,
        friendships := removeFid db.friendships f.id })
    | none =>
      (200, { db with
        follows := removeEdge db.follows followerId followingId })

/-- The Relationship Graph Manager operations, as one step type (all
with failure injection off, i.e. the normal exception-free run). -/
inductive RelOp
  | sendRequest (senderId receiverId : Nat)
  | accept (fid actorId : Nat)
  | doUnfriend (currentId targetId : Nat)
  | cancel (fid actorId : Nat)
  | reject (fid actorId : Nat)
  | doFollow (followerId followingId : Nat)
  | doUnfollow (followerId followingId : Nat)
deriving DecidableEq, Repr

/-- One normal (exception-free) run of a Relationship Graph Manager
operation. -/
def applyRelOp (op : RelOp) (db : DB) : Nat × DB :=
  match op with
  | RelOp.sendRequest s r => sendFriendRequest false s r db
  | RelOp.accept fid a => acceptFriendRequest false fid a db
  | RelOp.doUnfriend c t => unfriend c t db
  | RelOp.cancel fid a => cancelFriendRequest fid a db
  | RelOp.reject fid a => rejectFriendRequest fid a db
  | RelOp.doFollow a b => followUser false a b db
  | RelOp.doUnfollow a b => unfollowUser a b db

/-! ### Store invariants (schema constraints and spec section 8) -/

/-- The accepted-implies-bidirectional-follow invariant, over the two
tables it reads. -/
def ffInv (fs : List Friendship) (es : List Follower) : Prop :=
  ∀ f ∈ fs, f.status = "accepted" →
    hasEdge es f.userAId f.userBId = true ∧
    hasEdge es f.userBId f.userAId = true

/-- The accepted-implies-bidirectional-follow invariant of the store. -/
def friendFollowInv (db : DB) : Prop :=
  ffInv db.friendships db.follows

/-- At most one Friendship row per unordered user pair (spec section 8
first invariant; the schema enforces uniqueness per ordered pair and
the routes always query both orderings). -/
def friendshipPairUnique (db : DB) : Prop :=
  ∀ f ∈ db.friendships, ∀ g ∈ db.friendships,
    pairB f.userAId f.userBId g = true → f = g

/-- Friendship primary keys are unique (schema @id). -/
def friendshipIdUnique (db : DB) : Prop :=
  ∀ f ∈ db.friendships, ∀ g ∈ db.friendships, f.id = g.id → f = g

/-- At most one Reaction row per (userId, postId) (schema @@unique). -/
def reactionPairUnique (db : DB) : Prop :=
  ∀ r ∈ db.reactions, ∀ q ∈ db.reactions,
    r.userId = q.userId → r.postId = q.postId → r = q

/-! ### Feed Composer (GET /timeline-enhanced of the posts router) -/

/-- Audience user ids: everyone the viewer follows, plus the viewer
(followingUserIds.push(userId)). -/
def followingUserIdsOf (db : DB) (uid : Nat) : List Nat :=
  (db.follows.filter (fun e => e.followerId == uid)).map
    (fun e => e.followingId) ++ [uid]

/-- Audience page ids: followed pages plus accepted-member pages,
de-duplicated (the new Set spread). -/
def allPageIdsOf (db : DB) (uid : Nat) : List Nat :=
  (((db.pageFollowers.filter (fun pf => pf.userId == uid)).map
      (fun pf => pf.pageId))
    ++ ((db.pageMembers.filter
        (fun m => m.userId == uid && m.status == Status.accepted)).map
      (fun m => m.pageId))).dedup

/-- The audience predicate shared by every timeline query:
(authorId in followingUserIds AND type user) OR
(pageId in allPageIds AND type page).  A null authorId or pageId
matches no IN list. -/
def matchesAudience (db : DB) (uid : Nat) (p : Post) : Bool :=
  (p.ptype == PostType.user
      && (match p.authorId with
          | some a => decide (a ∈ followingUserIdsOf db uid)
          | none => false))
    || (p.ptype == PostType.page
      && (match p.pageId with
          | some q => decide (q ∈ allPageIdsOf db uid)
          | none => false))

/-- The active-boost condition of the timeline-enhanced where clause:
status accepted AND (endDate null OR endDate greater than now). -/
def isActiveBoost (now : Nat) (b : BoostedPost) : Bool :=
  b.status == Status.accepted
    && (match b.endDate with
        | none => true
        | some d => now < d)

/-- boostedPosts: { some: ... } over the BoostedPost table. -/
def hasActiveBoost (db : DB) (now : Nat) (p : Post) : Bool :=
  db.boostedPosts.any (fun b => b.postId == p.id && isActiveBoost now b)

/-- The filtered boostedPosts rows included with each returned post. -/
def activeBoostsOf (db : DB) (now : Nat) (p : Post) : List BoostedPost :=
  db.boostedPosts.filter (fun b => b.postId == p.id && isActiveBoost now b)

/-- orderBy createdAt desc (ties keep table order). -/
def sortedPosts (db : DB) : List Post :=
  List.insertionSort (fun p q => q.createdAt ≤ p.createdAt) db.posts

/-- The boosted fetch: audience posts having an active boost, by
recency, take Math.min(5, limit).  No offset is applied and no
soft-delete filter appears in the query. -/
def boostedFetch (db : DB) (uid limit now : Nat) : List Post :=
  ((sortedPosts db).filter
    (fun p => hasActiveBoost db now p && matchesAudience db uid p)).take
    (min 5 limit)

/-- The regular fetch: audience posts not already selected as boosted,
by recency, skip (page-1)*limit, take limit minus the number of boosted
posts returned.  No soft-delete filter appears in the query. -/
def regularFetch (db : DB) (uid page limit now : Nat) : List Post :=
  (((sortedPosts db).filter
      (fun p =>
        !(decide (p.id ∈ (boostedFetch db uid limit now).map
            (fun q => q.id)))
          && matchesAudience db uid p)).drop
    ((page - 1) * limit)).take
    (limit - (boostedFetch db uid limit now).length)

/-- post.count over the audience predicate (no boosted exclusion, no
soft-delete filter). -/
def timelineTotal (db : DB) (uid : Nat) : Nat :=
  (db.posts.filter (matchesAudience db uid)).length

/-- One returned feed entry: the post, the isBoosted tag added during
concatenation, and the included active boostedPosts rows. -/
structure FeedItem where
  post : Post
  isBoosted : Bool
  activeBoosts : List BoostedPost
deriving DecidableEq, Repr

/-- The timeline-enhanced response body. -/
structure FeedResponse where
  posts : List FeedItem
  hasMore : Bool
  total : Nat
  boostedCount : Nat
  regularCount : Nat
deriving DecidableEq, Repr

/-- GET /timeline-enhanced: boosted fetch, regular fetch, concatenation
boosted-then-regular with isBoosted tags, total count and
hasMore = skip + returned < total. -/
def timelineEnhanced (db : DB) (uid page limit now : Nat) : FeedResponse :=
  { posts :=
      (boostedFetch db uid limit now).map
          (fun p => ⟨p, true, activeBoostsOf db now p⟩)
        ++ (regularFetch db uid page limit now).map
          (fun p => ⟨p, false, activeBoostsOf db now p⟩),
    hasMore :=
      decide ((page - 1) * limit
        + ((boostedFetch db uid limit now).length
          + (regularFetch db uid page limit now).length)
        < timelineTotal db uid),
    total := timelineTotal db uid,
    boostedCount := (boostedFetch db uid limit now).length,
    regularCount := (regularFetch db uid page limit now).length }

/-! ### Boost-expiry sweep (services/sponsoredScheduler.js) -/

/-- The updateMany row rule of updateExpiredPosts: a Sponsored row with
endDate before now and isActive accepted or pending becomes expired. -/
def expireSponsored (now : Nat) (s : Sponsored) : Sponsored :=
  if (match s.endDate with | some d => d < now | none => false)
      && (s.isActive == Status.accepted || s.isActive == Status.pending)
  then { s with isActive := Status.expired } else s

/-- updateExpiredPosts(): updates the Sponsored table (and only it) and
returns the matched-row count. -/
def updateExpiredPosts (now : Nat) (db : DB) : Nat × DB :=
  ((db.sponsored.filter (fun s =>
      (match s.endDate with | some d => d < now | none => false)
        && (s.isActive == Status.accepted
          || s.isActive == Status.pending))).length,
    { db with sponsored := db.sponsored.map (expireSponsored now) })

/-! ### Reaction toggle (POST /:postId/react of the like router) -/

/-- reaction.findUnique on the (userId, postId) unique key. -/
def findReaction (db : DB) (uid pid : Nat) : Option Reaction :=
  db.reactions.find? (fun r => r.userId == uid && r.postId == pid)

/-- reaction.update({where:{userId_postId}, data:{type}}), as the row
function applied by the update branch of the react endpoint. -/
def reactionUpd (uid pid : Nat) (t : ReactionType) (r : Reaction) :
    Reaction :=
  if r.userId == uid && r.postId == pid then { r with rtype := t } else r

/-- POST /:postId/react: no existing reaction creates one (201) and
dispatches the like notification; an existing reaction of the same type
is deleted (200, no notification); a different type is updated in place
(200) and dispatches the like notification. -/
def reactToPost (uid pid : Nat) (t : ReactionType) (db : DB) : Nat × DB :=
  match findReaction db uid pid with
  | none =>
    (201, { db with
      reactions := db.reactions ++ [⟨uid, pid, t⟩],
      notifs := db.notifs ++ likeRows db uid pid })
  | some ex =>
    if ex.rtype = t then
      (200, { db with
        reactions := db.reactions.filter
          (fun r => !(r.userId == uid && r.postId == pid)) })
    else
      (200, { db with
        reactions := db.reactions.map (reactionUpd uid pid t),
        notifs := db.notifs ++ likeRows db uid pid })

/-! ### Concrete store states used to evaluate the definitions -/

/-- Two users, a pending request from 1 to 2 with its implied follow
edge: the state right after sendFriendRequest(1, 2) on an empty
store. -/
def dbPending : DB :=
  { users := [⟨1, none⟩, ⟨2, none⟩],
    friendships := [⟨0, 1, 2, "pending"⟩],
    follows := [⟨1, 2⟩],
    nextId := 1 }

/-- Two users with a pending request from 1 to 2 whose implied follow
edge is gone again (user 1 unfollowed after sending the request). -/
def dbPendingNoEdge : DB :=
  { users := [⟨1, none⟩, ⟨2, none⟩],
    friendships := [⟨0, 1, 2, "pending"⟩],
    follows := [],
    nextId := 1 }

/-- Viewer 1 follows user 2, who has one soft-deleted post. -/
def dbDeletedPost : DB :=
  { users := [⟨1, none⟩, ⟨2, none⟩],
    follows := [⟨1, 2⟩],
    posts := [⟨10, some 2, none, PostType.user, 3, some 4⟩] }

/-- One accepted BoostedPost whose endDate (5) is already past, next to
one accepted Sponsored row with the same past endDate. -/
def dbExpiredBoost : DB :=
  { boostedPosts := [⟨1, 10, Status.accepted, some 5⟩],
    sponsored := [⟨1, Status.accepted, some 5⟩] }

/-- Users 1 and 2, user 2 owns a post, no reactions yet. -/
def dbReact : DB :=
  { users := [⟨1, none⟩, ⟨2, none⟩],
    posts := [⟨10, some 2, none, PostType.user, 0, none⟩] }

/-- A store whose only post is by user 5, whom viewer 1 does not
follow. -/
def dbNoAudience : DB :=
  { users := [⟨1, none⟩, ⟨5, none⟩],
    posts := [⟨10, some 5, none, PostType.user, 0, none⟩] }

/-! ## Helper lemmas -/

theorem hasEdge_iff {l : List Follower} {a b : Nat} :
    hasEdge l a b = true ↔
      ∃ e ∈ l, e.followerId = a ∧ e.followingId = b := by
  simp [hasEdge, List.any_eq_true]

theorem pairB_iff {u v : Nat} {f : Friendship} :
    pairB u v f = true ↔
      ((f.userAId = u ∧ f.userBId = v) ∨
        (f.userAId = v ∧ f.userBId = u)) := by
  simp [pairB]

theorem pairB_false_iff {u v : Nat} {f : Friendship} :
    pairB u v f = false ↔
      ¬((f.userAId = u ∧ f.userBId = v) ∨
        (f.userAId = v ∧ f.userBId = u)) := by
  simp [pairB]

theorem hasEdge_append {l l2 : List Follower} {x y : Nat}
    (h : hasEdge l x y = true) : hasEdge (l ++ l2) x y = true := by
  rcases hasEdge_iff.mp h with ⟨e, he, hx, hy⟩
  exact hasEdge_iff.mpr ⟨e, List.mem_append_left _ he, hx, hy⟩

theorem hasEdge_append_self (l : List Follower) (a b : Nat) :
    hasEdge (l ++ [⟨a, b⟩]) a b = true :=
  hasEdge_iff.mpr ⟨⟨a, b⟩, List.mem_append_right _ (by simp), rfl, rfl⟩

theorem hasEdge_ensure_self (l : List Follower) (a b : Nat) :
    hasEdge (ensureEdge l a b) a b = true := by
  unfold ensureEdge
  split
  · next h => exact h
  · exact hasEdge_append_self l a b

theorem hasEdge_ensure_mono {l : List Follower} {x y : Nat} (a b : Nat)
    (h : hasEdge l x y = true) :
    hasEdge (ensureEdge l a b) x y = true := by
  unfold ensureEdge
  split
  · exact h
  · exact hasEdge_append h

theorem hasEdge_remove {l : List Follower} {x y a b : Nat}
    (h : hasEdge l x y = true) (hne : ¬(x = a ∧ y = b)) :
    hasEdge (removeEdge l a b) x y = true := by
  rcases hasEdge_iff.mp h with ⟨e, he, hx, hy⟩
  refine hasEdge_iff.mpr ⟨e, List.mem_filter.mpr ⟨he, ?_⟩, hx, hy⟩
  subst hx; subst hy
  simp only [Bool.not_eq_true', decide_eq_false_iff_not]
  exact hne

theorem mem_updStatus {l : List Friendship} {fid : Nat} {st : String}
    {g : Friendship} (hg : g ∈ updStatus l fid st) :
    ∃ f ∈ l, (f.id = fid ∧ g = { f with status := st }) ∨
      (f.id ≠ fid ∧ g = f) := by
  rcases List.mem_map.mp hg with ⟨f, hf, rfl⟩
  refine ⟨f, hf, ?_⟩
  by_cases h : f.id = fid
  · exact Or.inl ⟨h, by simp [h]⟩
  · exact Or.inr ⟨h, by simp [h]⟩

theorem updStatus_mem_updated {l : List Friendship} {fid : Nat}
    {st : String} {f : Friendship} (hf : f ∈ l) (h : f.id = fid) :
    ({ f with status := st } : Friendship) ∈ updStatus l fid st :=
  List.mem_map.mpr ⟨f, hf, by simp [h]⟩

theorem length_updStatus (l : List Friendship) (fid : Nat) (st : String) :
    (updStatus l fid st).length = l.length :=
  List.length_map _ _

theorem mem_removeFid {l : List Friendship} {fid : Nat} {g : Friendship}
    (h : g ∈ removeFid l fid) : g ∈ l ∧ g.id ≠ fid := by
  have h2 := List.mem_filter.mp h
  refine ⟨h2.1, ?_⟩
  simpa using h2.2

theorem friendship_pair_eq {db : DB} (hpu : friendshipPairUnique db)
    {u v : Nat} {f g : Friendship}
    (hf : f ∈ db.friendships) (hg : g ∈ db.friendships)
    (h1 : pairB u v f = true) (h2 : pairB u v g = true) : f = g := by
  apply hpu f hf g hg
  rcases pairB_iff.mp h1 with ⟨ha, hb⟩ | ⟨ha, hb⟩ <;>
    rcases pairB_iff.mp h2 with ⟨hc, hd⟩ | ⟨hc, hd⟩ <;>
      subst ha <;> subst hb <;>
        apply pairB_iff.mpr <;>
          first
            | exact Or.inl ⟨hc, hd⟩
            | exact Or.inr ⟨hc, hd⟩

theorem sendRequestCreate_preserves (ff : Bool) (s r : Nat) (db : DB)
    (hinv : friendFollowInv db) :
    friendFollowInv (sendFriendRequestCreatePath ff s r db).2 := by
  unfold sendFriendRequestCreatePath
  split
  · exact hinv
  · unfold friendFollowInv ffInv
    intro g hg hacc
    rcases List.mem_append.mp hg with hg | hg
    · have h := hinv g hg hacc
      exact ⟨hasEdge_ensure_mono _ _ h.1, hasEdge_ensure_mono _ _ h.2⟩
    · rw [List.mem_singleton] at hg
      subst hg
      have hps : ("pending" : String) = "accepted" := hacc
      exact absurd hps (by decide)

theorem sendRequest_preserves (s r : Nat) (db : DB)
    (hid : friendshipIdUnique db) (hinv : friendFollowInv db) :
    friendFollowInv (sendFriendRequest false s r db).2 := by
  unfold sendFriendRequest
  split
  · exact hinv
  split
  · exact hinv
  split
  · next ex heq =>
    split
    · exact hinv
    split
    · split
      · next hdir =>
        simp only [Bool.false_eq_true, if_false]
        unfold friendFollowInv ffInv
        intro g hg hacc
        rcases mem_updStatus hg with ⟨f, hf, hcase⟩
        have hexmem := List.mem_of_find?_eq_some heq
        rcases hcase with ⟨hfid, rfl⟩ | ⟨hfid, rfl⟩
        · have hfe : f = ex := hid f hf ex hexmem hfid
          refine ⟨?_, ?_⟩
          · show hasEdge _ f.userAId f.userBId = true
            rw [hfe, hdir.1, hdir.2]
            exact hasEdge_ensure_self _ r s
          · show hasEdge _ f.userBId f.userAId = true
            rw [hfe, hdir.1, hdir.2]
            exact hasEdge_ensure_mono _ _ (hasEdge_ensure_self _ s r)
        · have h := hinv _ hf hacc
          exact ⟨hasEdge_ensure_mono _ _ (hasEdge_ensure_mono _ _ h.1),
            hasEdge_ensure_mono _ _ (hasEdge_ensure_mono _ _ h.2)⟩
      · exact hinv
    · exact sendRequestCreate_preserves false s r db hinv
  · exact sendRequestCreate_preserves false s r db hinv

theorem accept_preserves (fid a : Nat) (db : DB)
    (hid : friendshipIdUnique db) (hinv : friendFollowInv db) :
    friendFollowInv (acceptFriendRequest false fid a db).2 := by
  unfold acceptFriendRequest
  split
  · exact hinv
  · next f0 heq =>
    split
    · exact hinv
    split
    · exact hinv
    split
    · exact hinv
    · unfold friendFollowInv ffInv
      intro g hg hacc
      rcases mem_updStatus hg with ⟨f, hf, hcase⟩
      have hf0mem := List.mem_of_find?_eq_some heq
      have hf0id : f0.id = fid := by
        have := List.find?_some heq
        simpa using this
      rcases hcase with ⟨hfid, rfl⟩ | ⟨hfid, rfl⟩
      · have hfe : f = f0 := hid f hf f0 hf0mem (hfid.trans hf0id.symm)
        refine ⟨?_, ?_⟩
        · show hasEdge _ f.userAId f.userBId = true
          rw [hfe]
          exact hasEdge_ensure_mono _ _ (hasEdge_ensure_self _ _ _)
        · show hasEdge _ f.userBId f.userAId = true
          rw [hfe]
          exact hasEdge_ensure_self _ _ _
      · have h := hinv _ hf hacc
        exact ⟨hasEdge_ensure_mono _ _ (hasEdge_ensure_mono _ _ h.1),
          hasEdge_ensure_mono _ _ (hasEdge_ensure_mono _ _ h.2)⟩

theorem unfriend_preserves (c t : Nat) (db : DB)
    (hpu : friendshipPairUnique db) (hinv : friendFollowInv db) :
    friendFollowInv (unfriend c t db).2 := by
  unfold unfriend
  split
  · exact hinv
  split
  · exact hinv
  · next f0 heq =>
    unfold friendFollowInv ffInv
    intro g hg hacc
    obtain ⟨hgmem, hgid⟩ := mem_removeFid hg
    have hf0mem := List.mem_of_find?_eq_some heq
    have hf0pred := List.find?_some heq
    rw [Bool.and_eq_true] at hf0pred
    have hf0pair := hf0pred.1
    have hgpair : ¬ pairB c t g = true := by
      intro hc
      exact hgid (congrArg Friendship.id
        (friendship_pair_eq hpu hgmem hf0mem hc hf0pair))
    rw [pairB_iff] at hgpair
    have h := hinv g hgmem hacc
    refine ⟨hasEdge_remove (hasEdge_remove h.1 ?_) ?_,
      hasEdge_remove (hasEdge_remove h.2 ?_) ?_⟩
    · exact fun hx => hgpair (Or.inl hx)
    · exact fun hx => hgpair (Or.inr ⟨hx.1, hx.2⟩)
    · exact fun hx => hgpair (Or.inr ⟨hx.2, hx.1⟩)
    · exact fun hx => hgpair (Or.inl ⟨hx.2, hx.1⟩)

theorem cancel_preserves (fid a : Nat) (db : DB)
    (hpu : friendshipPairUnique db) (hinv : friendFollowInv db) :
    friendFollowInv (cancelFriendRequest fid a db).2 := by
  unfold cancelFriendRequest
  split
  · exact hinv
  · next f0 heq =>
    split
    · exact hinv
    split
    · exact hinv
    · next hpend =>
      unfold friendFollowInv ffInv
      intro g hg hacc
      obtain ⟨hgmem, hgid⟩ := mem_removeFid hg
      have hf0mem := List.mem_of_find?_eq_some heq
      have hf0id : f0.id = fid := by
        have := List.find?_some heq
        simpa using this
      have hgf0 : g ≠ f0 := by
        intro hc
        rw [hc, hf0id] at hgid
        exact hgid rfl
      have hgpair : ¬ pairB f0.userAId f0.userBId g = true := by
        intro hc
        exact hgf0 (friendship_pair_eq hpu hgmem hf0mem hc
          (pairB_iff.mpr (Or.inl ⟨rfl, rfl⟩)))
      rw [pairB_iff] at hgpair
      have h := hinv g hgmem hacc
      refine ⟨hasEdge_remove h.1 ?_, hasEdge_remove h.2 ?_⟩
      · exact fun hx => hgpair (Or.inl hx)
      · exact fun hx => hgpair (Or.inr ⟨hx.2, hx.1⟩)

theorem reject_preserves (fid a : Nat) (db : DB)
    (hinv : friendFollowInv db) :
    friendFollowInv (rejectFriendRequest fid a db).2 := by
  unfold rejectFriendRequest
  split
  · exact hinv
  · split
    · exact hinv
    split
    · exact hinv
    · unfold friendFollowInv ffInv
      intro g hg hacc
      exact hinv g (mem_removeFid hg).1 hacc

theorem follow_preserves (a b : Nat) (db : DB)
    (hinv : friendFollowInv db) :
    friendFollowInv (followUser false a b db).2 := by
  unfold followUser
  split
  · exact hinv
  split
  · exact hinv
  split
  · exact hinv
  · simp only [Bool.false_eq_true, if_false]
    unfold friendFollowInv ffInv
    intro g hg hacc
    split at hg
    · next hmk =>
      rw [Bool.and_eq_true] at hmk
      rcases List.mem_append.mp hg with hg | hg
      · have h := hinv g hg hacc
        exact ⟨hasEdge_append h.1, hasEdge_append h.2⟩
      · rw [List.mem_singleton] at hg
        subst hg
        exact ⟨hasEdge_append_self _ a b, hasEdge_append hmk.1⟩
    · have h := hinv g hg hacc
      exact ⟨hasEdge_append h.1, hasEdge_append h.2⟩

theorem unfollow_preserves (a b : Nat) (db : DB)
    (hpu : friendshipPairUnique db) (hinv : friendFollowInv db) :
    friendFollowInv (unfollowUser a b db).2 := by
  unfold unfollowUser
  split
  · exact hinv
  split
  · exact hinv
  split
  · next f0 heq =>
    unfold friendFollowInv ffInv
    intro g hg hacc
    obtain ⟨hgmem, hgid⟩ := mem_removeFid hg
    have hf0mem := List.mem_of_find?_eq_some heq
    have hf0pred := List.find?_some heq
    rw [Bool.and_eq_true] at hf0pred
    have hgpair : ¬ pairB a b g = true := by
      intro hc
      exact hgid (congrArg Friendship.id
        (friendship_pair_eq hpu hgmem hf0mem hc hf0pred.1))
    rw [pairB_iff] at hgpair
    have h := hinv g hgmem hacc
    refine ⟨hasEdge_remove h.1 ?_, hasEdge_remove h.2 ?_⟩
    · exact fun hx => hgpair (Or.inl hx)
    · exact fun hx => hgpair (Or.inr ⟨hx.2, hx.1⟩)
  · next heq =>
    unfold friendFollowInv ffInv
    intro g hg hacc
    have h := hinv g hg hacc
    have hgpair : ¬ pairB a b g = true := by
      intro hc
      have := List.find?_eq_none.mp heq g hg
      rw [Bool.and_eq_true] at this
      exact this ⟨hc, by simp [hacc]⟩
    rw [pairB_iff] at hgpair
    refine ⟨hasEdge_remove h.1 ?_, hasEdge_remove h.2 ?_⟩
    · exact fun hx => hgpair (Or.inl hx)
    · exact fun hx => hgpair (Or.inr ⟨hx.2, hx.1⟩)

/-- C1: for every pair of users, whenever a Friendship row between them
has status accepted, both FollowEdges exist and are alive (no route
ever soft-deletes a Follower row, so presence coincides with being
alive); under the schema key constraints (unique Friendship primary
key, at most one Friendship row per unordered pair) this invariant is
preserved by every Relationship Graph Manager operation:
sendFriendRequest including its auto-accept path, acceptFriendRequest,
unfriend, cancelFriendRequest, rejectFriendRequest, follow and
unfollow. -/
theorem C1_accepted_implies_mutual_follow_preserved
    (op : RelOp) (db : DB) (hid : friendshipIdUnique db)
    (hpu : friendshipPairUnique db) (hinv : friendFollowInv db) :
    friendFollowInv (applyRelOp op db).2 := by
  cases op with
  | sendRequest s r => exact sendRequest_preserves s r db hid hinv
  | accept fid a => exact accept_preserves fid a db hid hinv
  | doUnfriend c t => exact unfriend_preserves c t db hpu hinv
  | cancel fid a => exact cancel_preserves fid a db hpu hinv
  | reject fid a => exact reject_preserves fid a db hinv
  | doFollow a b => exact follow_preserves a b db hinv
  | doUnfollow a b => exact unfollow_preserves a b db hpu hinv

/-- Witness for C1: the invariant holds in dbPending and is preserved
when user 2 accepts the pending request. -/
theorem C1_accepted_implies_mutual_follow_preserved_witness :
    friendshipIdUnique dbPending ∧ friendshipPairUnique dbPending ∧
      friendFollowInv dbPending ∧
      friendFollowInv (applyRelOp (RelOp.accept 0 2) dbPending).2 :=
  ⟨by unfold friendshipIdUnique; decide,
   by unfold friendshipPairUnique; decide,
   by unfold friendFollowInv ffInv; decide,
   C1_accepted_implies_mutual_follow_preserved (RelOp.accept 0 2) dbPending
     (by unfold friendshipIdUnique; decide)
     (by unfold friendshipPairUnique; decide)
     (by unfold friendFollowInv ffInv; decide)⟩

/-- Reduction of sendFriendRequest on its auto-accept branch: the
existing opposite pending row is updated in place, the two follow
edges are ensured unless the follower.create calls fail, and the
friend_accept notification rows are appended. -/
theorem sendFriendRequest_auto (ff : Bool) (db : DB) {B A : Nat}
    {ex : Friendship} (hne : B ≠ A) (hA : userExists db A = true)
    (hfind : db.friendships.find? (pairB B A) = some ex)
    (hst : ex.status = "pending")
    (hdirA : ex.userAId = A) (hdirB : ex.userBId = B) :
    sendFriendRequest ff B A db =
      (200, { db with
        friendships := updStatus db.friendships ex.id "accepted",
        follows := if ff then db.follows
          else ensureEdge (ensureEdge db.follows B A) A B,
        notifs := db.notifs ++ friendAcceptRows db A B }) := by
  unfold sendFriendRequest
  split
  · next h => exact absurd h hne
  split
  · next h =>
    rw [hA] at h
    simp at h
  split
  · next ex2 heq =>
    rw [hfind] at heq
    injection heq with h
    subst h
    rw [if_neg (show ¬ ex.status = "accepted" by rw [hst]; decide),
      if_pos hst, if_pos ⟨hdirA, hdirB⟩]
  · next heq =>
    rw [hfind] at heq
    exact Option.noConfusion heq

/-- C5: if B sends a friend request to A while a pending Friendship
with A as requester (userAId = A, userBId = B) already exists, the call
creates no new Friendship row: the existing row is set to accepted in
place, both FollowEdges are ensured, and exactly one friend_accept
notification addressed to A (not a friend_request notification) is
persisted. -/
theorem C5_auto_accept_updates_in_place (db : DB) (A B : Nat)
    (ex : Friendship) (hne : B ≠ A)
    (hA : userExists db A = true) (hB : userExists db B = true)
    (hfind : db.friendships.find? (pairB B A) = some ex)
    (hst : ex.status = "pending")
    (hdirA : ex.userAId = A) (hdirB : ex.userBId = B) :
    (sendFriendRequest false B A db).1 = 200 ∧
    (sendFriendRequest false B A db).2.friendships =
      updStatus db.friendships ex.id "accepted" ∧
    (sendFriendRequest false B A db).2.friendships.length =
      db.friendships.length ∧
    ({ ex with status := "accepted" } : Friendship) ∈
      (sendFriendRequest false B A db).2.friendships ∧
    hasEdge (sendFriendRequest false B A db).2.follows B A = true ∧
    hasEdge (sendFriendRequest false B A db).2.follows A B = true ∧
    (sendFriendRequest false B A db).2.notifs =
      db.notifs ++ [⟨A, some B, NType.friend_accept, none, none⟩] := by
  have hres := sendFriendRequest_auto false db hne hA hfind hst hdirA hdirB
  have hrows : friendAcceptRows db A B =
      [⟨A, some B, NType.friend_accept, none, none⟩] := by
    unfold friendAcceptRows
    rw [if_neg (Ne.symm hne), hB]
    rfl
  rw [hres]
  refine ⟨rfl, rfl, length_updStatus _ _ _, ?_, ?_, ?_, ?_⟩
  · exact updStatus_mem_updated (List.mem_of_find?_eq_some hfind) rfl
  · exact hasEdge_ensure_mono _ _ (hasEdge_ensure_self _ B A)
  · exact hasEdge_ensure_self _ A B
  · exact congrArg (fun l => db.notifs ++ l) hrows

/-- Witness for C5: user 2 sends a request to user 1 while the pending
request from 1 to 2 of dbPending exists. -/
theorem C5_auto_accept_updates_in_place_witness :
    (sendFriendRequest false 2 1 dbPending).1 = 200 ∧
    (sendFriendRequest false 2 1 dbPending).2.friendships =
      updStatus dbPending.friendships 0 "accepted" ∧
    (sendFriendRequest false 2 1 dbPending).2.friendships.length =
      dbPending.friendships.length ∧
    ({ id := 0, userAId := 1, userBId := 2, status := "accepted" } :
      Friendship) ∈ (sendFriendRequest false 2 1 dbPending).2.friendships ∧
    hasEdge (sendFriendRequest false 2 1 dbPending).2.follows 2 1 = true ∧
    hasEdge (sendFriendRequest false 2 1 dbPending).2.follows 1 2 = true ∧
    (sendFriendRequest false 2 1 dbPending).2.notifs =
      dbPending.notifs ++ [⟨1, some 2, NType.friend_accept, none, none⟩] :=
  C5_auto_accept_updates_in_place dbPending 1 2 ⟨0, 1, 2, "pending"⟩
    (by decide) (by decide) (by decide) (by decide) rfl rfl rfl

/-- C3 counterexample: cancelling the pending request of dbPending (by
its sender, user 1) deletes the FollowEdge 1 to 2 that was created when
the request was sent, so the claim that cancel leaves every FollowEdge
unchanged is false on this input. -/
theorem C3_counterexample :
    (cancelFriendRequest 0 1 dbPending).1 = 200 ∧
    hasEdge dbPending.follows 1 2 = true ∧
    hasEdge (cancelFriendRequest 0 1 dbPending).2.follows 1 2 = false := by
  unfold cancelFriendRequest dbPending
  decide

/-- C3 amended: for a pending Friendship, reject (by the receiver)
deletes only the Friendship row and leaves the follow table unchanged,
while cancel (by the sender) deletes the Friendship row and the
FollowEdge sender to receiver; neither creates a notification. -/
theorem C3_cancel_reject_effects (db : DB) (fid actor : Nat)
    (f : Friendship)
    (hfind : db.friendships.find? (fun g => g.id == fid) = some f)
    (hpend : f.status = "pending") :
    (f.userBId = actor →
      (rejectFriendRequest fid actor db).2.follows = db.follows ∧
      (rejectFriendRequest fid actor db).2.friendships =
        removeFid db.friendships fid ∧
      (rejectFriendRequest fid actor db).2.notifs = db.notifs) ∧
    (f.userAId = actor →
      (cancelFriendRequest fid actor db).2.friendships =
        removeFid db.friendships fid ∧
      (cancelFriendRequest fid actor db).2.follows =
        removeEdge db.follows f.userAId f.userBId ∧
      (cancelFriendRequest fid actor db).2.notifs = db.notifs) := by
  constructor
  · intro hb
    unfold rejectFriendRequest
    rw [hfind]
    simp only []
    rw [if_neg (fun hc => hc hb), if_neg (fun hc => hc hpend)]
    exact ⟨rfl, rfl, rfl⟩
  · intro ha
    unfold cancelFriendRequest
    rw [hfind]
    simp only []
    rw [if_neg (fun hc => hc ha), if_neg (fun hc => hc hpend)]
    exact ⟨rfl, rfl, rfl⟩

/-- Witness for C3 amended: rejecting (actor 2) leaves the follow edge
1 to 2 of dbPending in place; cancelling (actor 1) removes it. -/
theorem C3_cancel_reject_effects_witness :
    ((rejectFriendRequest 0 2 dbPending).2.follows = dbPending.follows ∧
      (rejectFriendRequest 0 2 dbPending).2.friendships =
        removeFid dbPending.friendships 0 ∧
      (rejectFriendRequest 0 2 dbPending).2.notifs = dbPending.notifs) ∧
    ((cancelFriendRequest 0 1 dbPending).2.friendships =
        removeFid dbPending.friendships 0 ∧
      (cancelFriendRequest 0 1 dbPending).2.follows =
        removeEdge dbPending.follows 1 2 ∧
      (cancelFriendRequest 0 1 dbPending).2.notifs = dbPending.notifs) :=
  ⟨(C3_cancel_reject_effects dbPending 0 2 ⟨0, 1, 2, "pending"⟩
      (by unfold dbPending; decide) rfl).1 rfl,
   (C3_cancel_reject_effects dbPending 0 1 ⟨0, 1, 2, "pending"⟩
      (by unfold dbPending; decide) rfl).2 rfl⟩

/-- C2 counterexample: with an opposite pending request and no follow
edges (dbPendingNoEdge), user 2 sends a friend request to user 1 while
the follower.create calls fail; the route still answers 200 and the
store afterwards holds a Friendship marked accepted with both implied
FollowEdges missing, so the failed multi-row mutation left observable
partial state. -/
theorem C2_counterexample :
    (sendFriendRequest true 2 1 dbPendingNoEdge).1 = 200 ∧
    (∃ f ∈ (sendFriendRequest true 2 1 dbPendingNoEdge).2.friendships,
      f.status = "accepted") ∧
    hasEdge (sendFriendRequest true 2 1 dbPendingNoEdge).2.follows 1 2
      = false ∧
    hasEdge (sendFriendRequest true 2 1 dbPendingNoEdge).2.follows 2 1
      = false := by
  unfold sendFriendRequest dbPendingNoEdge
  decide

/-- C2 amended: the create path of sendFriendRequest, the accept
transaction and the follow transaction are all-or-nothing (a failing
follower.create rolls the store back unchanged and the route answers
500); the auto-accept path of sendFriendRequest is not atomic: the
Friendship update commits on its own and a follower.create failure is
swallowed, leaving a 200 answer and an accepted Friendship whose
implied FollowEdge is missing. -/
theorem C2_transaction_effects (db : DB) (s r fid a : Nat)
    (f : Friendship) :
    (db.friendships.find? (pairB s r) = none →
      hasEdge db.follows s r = false → s ≠ r → userExists db r = true →
      sendFriendRequest true s r db = (500, db)) ∧
    (db.friendships.find? (fun g => g.id == fid) = some f →
      f.userBId = a → f.status = "pending" →
      hasEdge db.follows f.userAId f.userBId = false →
      acceptFriendRequest true fid a db = (500, db)) ∧
    (s ≠ r → userExists db r = true → hasEdge db.follows s r = false →
      followUser true s r db = (500, db)) ∧
    (db.friendships.find? (pairB s r) = some f → f.status = "pending" →
      f.userAId = r → f.userBId = s → s ≠ r → userExists db r = true →
      hasEdge db.follows s r = false →
      (sendFriendRequest true s r db).1 = 200 ∧
      ({ f with status := "accepted" } : Friendship) ∈
        (sendFriendRequest true s r db).2.friendships ∧
      hasEdge (sendFriendRequest true s r db).2.follows s r = false) := by
  refine ⟨?_, ?_, ?_, ?_⟩
  · intro hfind hedge hne hr
    unfold sendFriendRequest sendFriendRequestCreatePath
    rw [if_neg hne, hr, hfind, hedge]
    rfl
  · intro hfind hb hpend hedge
    unfold acceptFriendRequest
    rw [hfind]
    simp only []
    rw [if_neg (fun hc => hc hb), if_neg (fun hc => hc hpend), hedge]
    rfl
  · intro hne hr hedge
    unfold followUser
    rw [if_neg hne, hr, hedge]
    rfl
  · intro hfind hpend hA hB hne hr hedge
    have hres := sendFriendRequest_auto true db hne hr hfind hpend hA hB
    rw [hres]
    refine ⟨rfl, ?_, ?_⟩
    · exact updStatus_mem_updated (List.mem_of_find?_eq_some hfind) rfl
    · exact hedge

/-- Witness for C2 amended: the create-path rollback at dbReact (user 1
requests user 2 under a follower.create failure) and the auto-accept
partial state at dbPendingNoEdge. -/
theorem C2_transaction_effects_witness :
    sendFriendRequest true 1 2 dbReact = (500, dbReact) ∧
    ((sendFriendRequest true 2 1 dbPendingNoEdge).1 = 200 ∧
      ({ id := 0, userAId := 1, userBId := 2, status := "accepted" } :
        Friendship) ∈
        (sendFriendRequest true 2 1 dbPendingNoEdge).2.friendships ∧
      hasEdge (sendFriendRequest true 2 1 dbPendingNoEdge).2.follows 2 1
        = false) :=
  ⟨(C2_transaction_effects dbReact 1 2 0 0 ⟨0, 0, 0, "pending"⟩).1
      (by unfold dbReact; decide) (by unfold dbReact hasEdge; decide)
      (by decide) (by unfold userExists dbReact; decide),
   (C2_transaction_effects dbPendingNoEdge 2 1 0 0
        ⟨0, 1, 2, "pending"⟩).2.2.2
      (by unfold dbPendingNoEdge pairB; decide) rfl rfl rfl (by decide)
      (by unfold userExists dbPendingNoEdge; decide)
      (by unfold dbPendingNoEdge hasEdge; decide)⟩

/-! ## Feed Composer lemmas -/

theorem mem_sortedPosts {db : DB} {p : Post} :
    p ∈ sortedPosts db ↔ p ∈ db.posts :=
  (List.perm_insertionSort _ _).mem_iff

theorem isActiveBoost_iff {now : Nat} {b : BoostedPost} :
    isActiveBoost now b = true ↔
      b.status = Status.accepted ∧
        (b.endDate = none ∨ ∃ d, b.endDate = some d ∧ now < d) := by
  cases hb : b.endDate <;> simp [isActiveBoost, hb]

theorem mem_boostedFetch {db : DB} {uid limit now : Nat} {p : Post}
    (h : p ∈ boostedFetch db uid limit now) :
    hasActiveBoost db now p = true ∧ matchesAudience db uid p = true := by
  have h2 := List.mem_filter.mp (List.mem_of_mem_take h)
  have h3 := h2.2
  rw [Bool.and_eq_true] at h3
  exact h3

theorem mem_regularFetch {db : DB} {uid page limit now : Nat} {p : Post}
    (h : p ∈ regularFetch db uid page limit now) :
    matchesAudience db uid p = true ∧
      ∀ q ∈ boostedFetch db uid limit now, p.id ≠ q.id := by
  have h2 := List.mem_filter.mp
    (List.mem_of_mem_drop (List.mem_of_mem_take h))
  have h3 := h2.2
  rw [Bool.and_eq_true] at h3
  refine ⟨h3.2, ?_⟩
  intro q hq heq
  have h4 := h3.1
  rw [Bool.not_eq_true', decide_eq_false_iff_not] at h4
  exact h4 (List.mem_map.mpr ⟨q, hq, heq.symm⟩)

theorem boostedFetch_empty (db : DB) (uid limit now : Nat)
    (h : ∀ p ∈ db.posts, matchesAudience db uid p = false) :
    boostedFetch db uid limit now = [] := by
  unfold boostedFetch
  rw [List.filter_eq_nil_iff.mpr, List.take_nil]
  intro p hp hc
  rw [Bool.and_eq_true] at hc
  rw [h p (mem_sortedPosts.mp hp)] at hc
  exact Bool.false_ne_true hc.2

theorem regularFetch_empty (db : DB) (uid page limit now : Nat)
    (h : ∀ p ∈ db.posts, matchesAudience db uid p = false) :
    regularFetch db uid page limit now = [] := by
  unfold regularFetch
  rw [List.filter_eq_nil_iff.mpr, List.drop_nil, List.take_nil]
  intro p hp hc
  rw [Bool.and_eq_true] at hc
  rw [h p (mem_sortedPosts.mp hp)] at hc
  exact Bool.false_ne_true hc.2

theorem timelineTotal_zero (db : DB) (uid : Nat)
    (h : ∀ p ∈ db.posts, matchesAudience db uid p = false) :
    timelineTotal db uid = 0 := by
  unfold timelineTotal
  rw [List.filter_eq_nil_iff.mpr]
  · rfl
  · intro p hp hc
    rw [h p hp] at hc
    exact Bool.false_ne_true hc

/-- C4: the spec invariant that feed results never include a
soft-deleted Post (nor one whose author or owning Page is soft-deleted)
fails on the code: the timeline-enhanced queries carry no deletedAt
filter at all, so viewer 1 of dbDeletedPost is served the soft-deleted
post 10 of user 2. -/
theorem C4_feed_returns_soft_deleted_post :
    (timelineEnhanced dbDeletedPost 1 1 10 100).posts.map
        (fun it => (it.post.id, it.post.deletedAt)) = [(10, some 4)] ∧
    (timelineEnhanced dbDeletedPost 1 1 10 100).posts.all
        (fun it => it.post.deletedAt != none) = true := by
  constructor <;> rfl

/-- C6: timeline-enhanced returns at most min(5, limit) boosted posts,
places all of them before every organic post, tags every item with its
origin, only selects boosted posts that match the audience and carry an
active accepted boost, excludes the boosted ids from the organic fetch,
and caps the organic fetch at limit minus the number of boosted posts
returned. -/
theorem C6_boosted_quota_and_order (db : DB) (uid page limit now : Nat) :
    (timelineEnhanced db uid page limit now).boostedCount ≤ min 5 limit ∧
    (timelineEnhanced db uid page limit now).posts.length =
      (timelineEnhanced db uid page limit now).boostedCount +
        (timelineEnhanced db uid page limit now).regularCount ∧
    (timelineEnhanced db uid page limit now).regularCount ≤
      limit - (timelineEnhanced db uid page limit now).boostedCount ∧
    (∀ it ∈ (timelineEnhanced db uid page limit now).posts.take
        (timelineEnhanced db uid page limit now).boostedCount,
      it.isBoosted = true ∧ matchesAudience db uid it.post = true ∧
      ∃ b ∈ db.boostedPosts, b.postId = it.post.id ∧
        b.status = Status.accepted ∧
        (b.endDate = none ∨ ∃ d, b.endDate = some d ∧ now < d)) ∧
    (∀ it ∈ (timelineEnhanced db uid page limit now).posts.drop
        (timelineEnhanced db uid page limit now).boostedCount,
      it.isBoosted = false ∧ matchesAudience db uid it.post = true ∧
      ∀ jt ∈ (timelineEnhanced db uid page limit now).posts.take
          (timelineEnhanced db uid page limit now).boostedCount,
        it.post.id ≠ jt.post.id) := by
  have hposts : (timelineEnhanced db uid page limit now).posts =
      (boostedFetch db uid limit now).map
        (fun p => (⟨p, true, activeBoostsOf db now p⟩ : FeedItem))
      ++ (regularFetch db uid page limit now).map
        (fun p => ⟨p, false, activeBoostsOf db now p⟩) := rfl
  have hbc : (timelineEnhanced db uid page limit now).boostedCount =
      (boostedFetch db uid limit now).length := rfl
  have hrc : (timelineEnhanced db uid page limit now).regularCount =
      (regularFetch db uid page limit now).length := rfl
  have hlen : ((boostedFetch db uid limit now).map
      (fun p => (⟨p, true, activeBoostsOf db now p⟩ : FeedItem))).length
      = (boostedFetch db uid limit now).length :=
    List.length_map _ _
  have htake : (timelineEnhanced db uid page limit now).posts.take
      (timelineEnhanced db uid page limit now).boostedCount =
      (boostedFetch db uid limit now).map
        (fun p => ⟨p, true, activeBoostsOf db now p⟩) := by
    rw [hposts, hbc, ← hlen]
    exact List.take_left _ _
  have hdrop : (timelineEnhanced db uid page limit now).posts.drop
      (timelineEnhanced db uid page limit now).boostedCount =
      (regularFetch db uid page limit now).map
        (fun p => ⟨p, false, activeBoostsOf db now p⟩) := by
    rw [hposts, hbc, ← hlen]
    exact List.drop_left _ _
  refine ⟨?_, ?_, ?_, ?_, ?_⟩
  · rw [hbc]
    exact List.length_take_le _ _
  · rw [hposts, hbc, hrc, List.length_append, List.length_map,
      List.length_map]
  · rw [hrc, hbc]
    exact List.length_take_le _ _
  · intro it hit
    rw [htake] at hit
    rcases List.mem_map.mp hit with ⟨p, hp, rfl⟩
    have hcond := mem_boostedFetch hp
    refine ⟨rfl, hcond.2, ?_⟩
    have hab := hcond.1
    unfold hasActiveBoost at hab
    rw [List.any_eq_true] at hab
    rcases hab with ⟨b, hbmem, hbp⟩
    rw [Bool.and_eq_true] at hbp
    have hid : b.postId = p.id := by simpa using hbp.1
    have hact := isActiveBoost_iff.mp hbp.2
    exact ⟨b, hbmem, hid, hact.1, hact.2⟩
  · intro it hit
    rw [hdrop] at hit
    rcases List.mem_map.mp hit with ⟨p, hp, rfl⟩
    have hcond := mem_regularFetch hp
    refine ⟨rfl, hcond.1, ?_⟩
    intro jt hjt
    rw [htake] at hjt
    rcases List.mem_map.mp hjt with ⟨q, hq, rfl⟩
    exact hcond.2 q hq

/-- C7 counterexample: after the expiry sweep updateExpiredPosts runs
(at time 10) on dbExpiredBoost, the accepted BoostedPost whose endDate
5 is past still reads accepted, not expired: the sweep updates only the
separate Sponsored table. -/
theorem C7_counterexample :
    (updateExpiredPosts 10 dbExpiredBoost).2.boostedPosts.all
      (fun b => b.status == Status.accepted) = true ∧
    (updateExpiredPosts 10 dbExpiredBoost).2.boostedPosts.any
      (fun b => b.status == Status.expired) = false := by
  constructor <;> rfl

/-- C7 amended: an accepted BoostedPost whose endDate is past is never
returned as boosted content by timeline-enhanced (it is excluded from
every returned activeBoosts list); the expiry sweep updateExpiredPosts
leaves the BoostedPost table untouched (so such a row still reads
accepted afterwards) and instead transitions matching Sponsored rows to
expired. -/
theorem C7_expired_boost_excluded (db : DB) (uid page limit now : Nat)
    (b : BoostedPost) (d : Nat) (_hmem : b ∈ db.boostedPosts)
    (hend : b.endDate = some d) (hpast : d < now) :
    (∀ it ∈ (timelineEnhanced db uid page limit now).posts,
      b ∉ it.activeBoosts) ∧
    (updateExpiredPosts now db).2.boostedPosts = db.boostedPosts ∧
    (∀ s ∈ db.sponsored, ∀ e, s.isActive = Status.accepted →
      s.endDate = some e → e < now →
      ({ s with isActive := Status.expired } : Sponsored) ∈
        (updateExpiredPosts now db).2.sponsored) := by
  have hnotActive : ∀ p : Post, b ∉ activeBoostsOf db now p := by
    intro p hc
    have h2 := (List.mem_filter.mp hc).2
    rw [Bool.and_eq_true] at h2
    have h3 := isActiveBoost_iff.mp h2.2
    rcases h3.2 with hnone | ⟨e, he, hlt⟩
    · rw [hend] at hnone
      exact Option.noConfusion hnone
    · rw [hend] at he
      injection he with he2
      rw [← he2] at hlt
      exact Nat.lt_asymm hpast hlt
  refine ⟨?_, rfl, ?_⟩
  · intro it hit
    rcases List.mem_append.mp hit with hit | hit <;>
      rcases List.mem_map.mp hit with ⟨p, hp, rfl⟩ <;>
        exact hnotActive p
  · intro s hs e hacc hsd hlt
    have hrow : expireSponsored now s =
        { s with isActive := Status.expired } := by
      unfold expireSponsored
      rw [hsd, hacc]
      simp [hlt]
    have hm : expireSponsored now s ∈
        db.sponsored.map (expireSponsored now) :=
      List.mem_map.mpr ⟨s, hs, rfl⟩
    rw [hrow] at hm
    exact hm

/-- Witness for C7 amended: the accepted BoostedPost of dbExpiredBoost
with endDate 5 at time 10. -/
theorem C7_expired_boost_excluded_witness :
    (∀ it ∈ (timelineEnhanced dbExpiredBoost 1 1 10 10).posts,
      (⟨1, 10, Status.accepted, some 5⟩ : BoostedPost) ∉
        it.activeBoosts) ∧
    (updateExpiredPosts 10 dbExpiredBoost).2.boostedPosts =
      dbExpiredBoost.boostedPosts ∧
    (∀ s ∈ dbExpiredBoost.sponsored, ∀ e,
      s.isActive = Status.accepted → s.endDate = some e → e < 10 →
      ({ s with isActive := Status.expired } : Sponsored) ∈
        (updateExpiredPosts 10 dbExpiredBoost).2.sponsored) :=
  C7_expired_boost_excluded dbExpiredBoost 1 1 10 10
    ⟨1, 10, Status.accepted, some 5⟩ 5 (by decide) rfl (by decide)

/-- C9: the viewer is always part of their own audience, a user-type
post authored by the viewer always matches the audience predicate (so
an empty follow set still yields the viewer's own posts), and when no
post matches the audience the timeline-enhanced response is the normal
one with an empty item list and hasMore false. -/
theorem C9_empty_audience_response (db : DB) (uid page limit now : Nat) :
    uid ∈ followingUserIdsOf db uid ∧
    (∀ p ∈ db.posts, p.ptype = PostType.user → p.authorId = some uid →
      matchesAudience db uid p = true) ∧
    ((∀ p ∈ db.posts, matchesAudience db uid p = false) →
      (timelineEnhanced db uid page limit now).posts = [] ∧
      (timelineEnhanced db uid page limit now).hasMore = false) := by
  have hself : uid ∈ followingUserIdsOf db uid := by
    unfold followingUserIdsOf
    exact List.mem_append_right _ (by simp)
  refine ⟨hself, ?_, ?_⟩
  · intro p hp hty hau
    unfold matchesAudience
    rw [hty, hau]
    simp [hself]
  · intro h
    have hbf := boostedFetch_empty db uid limit now h
    have hrf := regularFetch_empty db uid page limit now h
    have htot := timelineTotal_zero db uid h
    have hposts : (timelineEnhanced db uid page limit now).posts =
        (boostedFetch db uid limit now).map
          (fun p => (⟨p, true, activeBoostsOf db now p⟩ : FeedItem))
        ++ (regularFetch db uid page limit now).map
          (fun p => ⟨p, false, activeBoostsOf db now p⟩) := rfl
    have hhm : (timelineEnhanced db uid page limit now).hasMore =
        decide ((page - 1) * limit
          + ((boostedFetch db uid limit now).length
            + (regularFetch db uid page limit now).length)
          < timelineTotal db uid) := rfl
    constructor
    · rw [hposts, hbf, hrf]
      rfl
    · rw [hhm, hbf, hrf, htot]
      simp

/-- Witness for C9: viewer 1 of dbNoAudience follows nobody and user 5
is not in their audience, so the feed is empty with hasMore false. -/
theorem C9_empty_audience_response_witness :
    1 ∈ followingUserIdsOf dbNoAudience 1 ∧
    ((timelineEnhanced dbNoAudience 1 1 10 0).posts = [] ∧
      (timelineEnhanced dbNoAudience 1 1 10 0).hasMore = false) :=
  ⟨(C9_empty_audience_response dbNoAudience 1 1 10 0).1,
   (C9_empty_audience_response dbNoAudience 1 1 10 0).2.2 (by decide)⟩

/-! ## Reaction and like-notification lemmas -/

theorem likeRows_eq {db : DB} {pid : Nat} {post : Post} {rid : Nat}
    (uid : Nat)
    (hpost : db.posts.find? (fun p => p.id == pid) = some post)
    (hrec : likeRecipient db post = some rid) :
    likeRows db uid pid =
      if uid = rid then []
      else if userExists db uid then
        [⟨rid, some uid,
          (if post.ptype = PostType.user then NType.like
            else NType.page_like), some pid, post.pageId⟩]
      else [] := by
  unfold likeRows
  split
  · next heq =>
    rw [hpost] at heq
    exact Option.noConfusion heq
  · next post2 heq =>
    rw [hpost] at heq
    injection heq with h
    subst h
    split
    · next heq2 =>
      rw [hrec] at heq2
      exact Option.noConfusion heq2
    · next rid2 heq2 =>
      rw [hrec] at heq2
      injection heq2 with h2
      subst h2
      rfl

theorem reactToPost_create {db : DB} {uid pid : Nat} (t : ReactionType)
    (h : findReaction db uid pid = none) :
    reactToPost uid pid t db =
      (201, { db with
        reactions := db.reactions ++ [⟨uid, pid, t⟩],
        notifs := db.notifs ++ likeRows db uid pid }) := by
  unfold reactToPost
  split
  · rfl
  · next ex heq =>
    rw [h] at heq
    exact Option.noConfusion heq

theorem reactToPost_delete {db : DB} {uid pid : Nat} {t : ReactionType}
    {ex : Reaction} (h : findReaction db uid pid = some ex)
    (ht : ex.rtype = t) :
    reactToPost uid pid t db =
      (200, { db with
        reactions := db.reactions.filter
          (fun r => !(r.userId == uid && r.postId == pid)) }) := by
  unfold reactToPost
  split
  · next heq =>
    rw [h] at heq
    exact Option.noConfusion heq
  · next ex2 heq =>
    rw [h] at heq
    injection heq with h2
    subst h2
    rw [if_pos ht]

theorem reactToPost_update {db : DB} {uid pid : Nat} {t : ReactionType}
    {ex : Reaction} (h : findReaction db uid pid = some ex)
    (ht : ¬ ex.rtype = t) :
    reactToPost uid pid t db =
      (200, { db with
        reactions := db.reactions.map (reactionUpd uid pid t),
        notifs := db.notifs ++ likeRows db uid pid }) := by
  unfold reactToPost
  split
  · next heq =>
    rw [h] at heq
    exact Option.noConfusion heq
  · next ex2 heq =>
    rw [h] at heq
    injection heq with h2
    subst h2
    rw [if_neg ht]

theorem reactionUpd_userId (uid pid : Nat) (t : ReactionType)
    (r : Reaction) : (reactionUpd uid pid t r).userId = r.userId := by
  unfold reactionUpd
  split <;> rfl

theorem reactionUpd_postId (uid pid : Nat) (t : ReactionType)
    (r : Reaction) : (reactionUpd uid pid t r).postId = r.postId := by
  unfold reactionUpd
  split <;> rfl

theorem find?_cons_pos {α : Type} (p : α → Bool) (a : α) (l : List α)
    (h : p a = true) : (a :: l).find? p = some a :=
  List.find?_cons_of_pos l h

theorem find?_cons_neg {α : Type} (p : α → Bool) (a : α) (l : List α)
    (h : p a = false) : (a :: l).find? p = l.find? p :=
  List.find?_cons_of_neg l (by simp [h])

theorem find?_append_none {α : Type} {l1 l2 : List α} {p : α → Bool}
    (h : l1.find? p = none) : (l1 ++ l2).find? p = l2.find? p := by
  induction l1 with
  | nil => rfl
  | cons a l ih =>
    by_cases hpa : p a = true
    · rw [List.find?_cons_of_pos _ hpa] at h
      exact Option.noConfusion h
    · rw [List.find?_cons_of_neg _ (by simpa using hpa)] at h
      rw [List.cons_append, List.find?_cons_of_neg _ (by simpa using hpa)]
      exact ih h

theorem find?_reaction_update (l : List Reaction) (uid pid : Nat)
    (t : ReactionType) :
    (l.map (reactionUpd uid pid t)).find?
      (fun r => r.userId == uid && r.postId == pid) =
    (l.find? (fun r => r.userId == uid && r.postId == pid)).map
      (fun _ => (⟨uid, pid, t⟩ : Reaction)) := by
  induction l with
  | nil => rfl
  | cons a l ih =>
    rw [List.map_cons]
    by_cases h : (a.userId == uid && a.postId == pid) = true
    · have h2 : ((reactionUpd uid pid t a).userId == uid
          && (reactionUpd uid pid t a).postId == pid) = true := by
        rw [reactionUpd_userId, reactionUpd_postId]
        exact h
      rw [find?_cons_pos (fun r => r.userId == uid && r.postId == pid)
          (reactionUpd uid pid t a) _ h2,
        find?_cons_pos (fun r => r.userId == uid && r.postId == pid)
          a _ h]
      show some (reactionUpd uid pid t a) =
        some (⟨uid, pid, t⟩ : Reaction)
      rw [Bool.and_eq_true] at h
      have hu : a.userId = uid := by simpa using h.1
      have hp : a.postId = pid := by simpa using h.2
      unfold reactionUpd
      rw [if_pos (by rw [hu, hp]; simp)]
      show some (⟨a.userId, a.postId, t⟩ : Reaction) = _
      rw [hu, hp]
    · have h' : (a.userId == uid && a.postId == pid) = false := by
        simpa using h
      have h2 : ((reactionUpd uid pid t a).userId == uid
          && (reactionUpd uid pid t a).postId == pid) = false := by
        rw [reactionUpd_userId, reactionUpd_postId]
        exact h'
      rw [find?_cons_neg (fun r => r.userId == uid && r.postId == pid)
          (reactionUpd uid pid t a) _ h2,
        find?_cons_neg (fun r => r.userId == uid && r.postId == pid)
          a _ h']
      exact ih

/-- C8: a reaction on a post whose resolved recipient is the actor
creates no notification row; a reaction (create or type change) on
someone else's post appends exactly one like (or page_like for page
posts) notification row addressed to that recipient. -/
theorem C8_like_notification_rules (db : DB) (uid pid : Nat)
    (t : ReactionType) (post : Post) (rid : Nat)
    (hpost : db.posts.find? (fun p => p.id == pid) = some post)
    (hrec : likeRecipient db post = some rid)
    (hnodup : ∀ rr ∈ db.reactions, rr.userId = uid → rr.postId = pid →
      rr.rtype ≠ t) :
    (uid = rid → (reactToPost uid pid t db).2.notifs = db.notifs) ∧
    (uid ≠ rid → userExists db uid = true →
      (reactToPost uid pid t db).2.notifs = db.notifs ++
        [⟨rid, some uid,
          (if post.ptype = PostType.user then NType.like
            else NType.page_like), some pid, post.pageId⟩]) := by
  have hnot : (reactToPost uid pid t db).2.notifs =
      db.notifs ++ likeRows db uid pid := by
    cases hfind : findReaction db uid pid with
    | none => rw [reactToPost_create t hfind]
    | some ex =>
      have hexmem : ex ∈ db.reactions :=
        List.mem_of_find?_eq_some hfind
      have hexpred := List.find?_some hfind
      rw [Bool.and_eq_true] at hexpred
      have hne : ¬ ex.rtype = t :=
        hnodup ex hexmem (by simpa using hexpred.1)
          (by simpa using hexpred.2)
      rw [reactToPost_update hfind hne]
  rw [hnot, likeRows_eq uid hpost hrec]
  constructor
  · intro h
    rw [if_pos h, List.append_nil]
  · intro h huser
    rw [if_neg h, huser, if_pos rfl]

/-- Witness for C8: in dbReact, user 2 reacting to their own post 10
appends no notification; user 1 reacting to it appends exactly one like
notification addressed to user 2. -/
theorem C8_like_notification_rules_witness :
    ((reactToPost 2 10 ReactionType.LIKE dbReact).2.notifs =
      dbReact.notifs) ∧
    ((reactToPost 1 10 ReactionType.LIKE dbReact).2.notifs =
      dbReact.notifs ++ [⟨2, some 1, NType.like, some 10, none⟩]) :=
  ⟨(C8_like_notification_rules dbReact 2 10 ReactionType.LIKE
      ⟨10, some 2, none, PostType.user, 0, none⟩ 2 (by decide) (by decide)
      (by decide)).1 rfl,
   (C8_like_notification_rules dbReact 1 10 ReactionType.LIKE
      ⟨10, some 2, none, PostType.user, 0, none⟩ 2 (by decide) (by decide)
      (by decide)).2 (by decide) (by decide)⟩

/-- C10: the react endpoint is a toggle on the unique (userId, postId)
pair: starting from a store with at most one reaction row per pair,
reacting preserves that uniqueness; with no existing row it creates the
row, with an existing row of the same type it deletes it, with a
different type it updates it in place; rows of other pairs are
untouched; and two identical reacts from the no-reaction state restore
the no-reaction state exactly. -/
theorem C10_reaction_toggle (db : DB) (uid pid : Nat) (t : ReactionType)
    (hu : reactionPairUnique db) :
    reactionPairUnique (reactToPost uid pid t db).2 ∧
    (findReaction db uid pid = none →
      findReaction (reactToPost uid pid t db).2 uid pid =
        some ⟨uid, pid, t⟩) ∧
    (∀ ex, findReaction db uid pid = some ex → ex.rtype = t →
      findReaction (reactToPost uid pid t db).2 uid pid = none) ∧
    (∀ ex, findReaction db uid pid = some ex → ¬ ex.rtype = t →
      findReaction (reactToPost uid pid t db).2 uid pid =
        some ⟨uid, pid, t⟩ ∧
      (reactToPost uid pid t db).2.reactions.length =
        db.reactions.length) ∧
    (∀ q : Reaction, (¬ q.userId = uid ∨ ¬ q.postId = pid) →
      (q ∈ (reactToPost uid pid t db).2.reactions ↔ q ∈ db.reactions)) ∧
    (findReaction db uid pid = none →
      (reactToPost uid pid t (reactToPost uid pid t db).2).2.reactions =
        db.reactions) := by
  have hqpred : ∀ q : Reaction, (¬ q.userId = uid ∨ ¬ q.postId = pid) →
      (q.userId == uid && q.postId == pid) = false := by
    intro q hq
    rcases hq with hq | hq <;>
      simp [Bool.and_eq_true, beq_iff_eq] <;> intro h1 <;>
        first
          | exact absurd h1 hq
          | exact fun h2 => absurd h2 hq
  refine ⟨?_, ?_, ?_, ?_, ?_, ?_⟩
  · -- uniqueness is preserved in every branch
    cases hfind : findReaction db uid pid with
    | none =>
      rw [reactToPost_create t hfind]
      intro r hr q hq hru hrp
      have hnomatch : ∀ x ∈ db.reactions,
          ¬ (x.userId == uid && x.postId == pid) = true :=
        List.find?_eq_none.mp hfind
      rcases List.mem_append.mp hr with hr | hr <;>
        rcases List.mem_append.mp hq with hq | hq
      · exact hu r hr q hq hru hrp
      · rw [List.mem_singleton] at hq
        subst hq
        exact absurd (by simp [hru, hrp]) (hnomatch r hr)
      · rw [List.mem_singleton] at hr
        subst hr
        exact absurd (by simp [← hru, ← hrp]) (hnomatch q hq)
      · rw [List.mem_singleton] at hr
        rw [List.mem_singleton] at hq
        rw [hr, hq]
    | some ex =>
      by_cases ht : ex.rtype = t
      · rw [reactToPost_delete hfind ht]
        intro r hr q hq hru hrp
        exact hu r (List.mem_filter.mp hr).1 q (List.mem_filter.mp hq).1
          hru hrp
      · rw [reactToPost_update hfind ht]
        intro r hr q hq hru hrp
        rcases List.mem_map.mp hr with ⟨r0, hr0, rfl⟩
        rcases List.mem_map.mp hq with ⟨q0, hq0, rfl⟩
        rw [reactionUpd_userId, reactionUpd_userId] at hru
        rw [reactionUpd_postId, reactionUpd_postId] at hrp
        rw [hu r0 hr0 q0 hq0 hru hrp]
  · intro hfind
    rw [reactToPost_create t hfind]
    unfold findReaction at hfind ⊢
    rw [find?_append_none hfind]
    exact List.find?_cons_of_pos _ (by simp)
  · intro ex hfind ht
    rw [reactToPost_delete hfind ht]
    unfold findReaction
    apply List.find?_eq_none.mpr
    intro x hx
    have h2 := (List.mem_filter.mp hx).2
    rw [Bool.not_eq_true'] at h2
    rw [h2]
    exact Bool.false_ne_true
  · intro ex hfind ht
    constructor
    · rw [reactToPost_update hfind ht]
      unfold findReaction at hfind ⊢
      rw [find?_reaction_update, hfind]
      rfl
    · rw [reactToPost_update hfind ht]
      exact List.length_map _ _
  · intro q hq
    cases hfind : findReaction db uid pid with
    | none =>
      rw [reactToPost_create t hfind]
      constructor
      · intro h
        rcases List.mem_append.mp h with h | h
        · exact h
        · rw [List.mem_singleton] at h
          subst h
          rcases hq with hq | hq <;> exact absurd rfl hq
      · exact fun h => List.mem_append_left _ h
    | some ex =>
      by_cases ht : ex.rtype = t
      · rw [reactToPost_delete hfind ht]
        constructor
        · exact fun h => (List.mem_filter.mp h).1
        · intro h
          refine List.mem_filter.mpr ⟨h, ?_⟩
          rw [hqpred q hq]
          rfl
      · rw [reactToPost_update hfind ht]
        constructor
        · intro h
          rcases List.mem_map.mp h with ⟨q0, hq0, rfl⟩
          have : (reactionUpd uid pid t q0).userId = q0.userId :=
            reactionUpd_userId uid pid t q0
          have hq0pred : (q0.userId == uid && q0.postId == pid) = false := by
            apply hqpred
            rcases hq with hq | hq
            · exact Or.inl (by rw [← reactionUpd_userId uid pid t q0]; exact hq)
            · exact Or.inr (by rw [← reactionUpd_postId uid pid t q0]; exact hq)
          have hfix : reactionUpd uid pid t q0 = q0 := by
            unfold reactionUpd
            rw [hq0pred]
            rfl
          rw [hfix]
          exact hq0
        · intro h
          have hfix : reactionUpd uid pid t q = q := by
            unfold reactionUpd
            rw [hqpred q hq]
            rfl
          exact List.mem_map.mpr ⟨q, h, hfix⟩
  · intro hfind
    rw [reactToPost_create t hfind]
    have hnone1 : findReaction
        { db with
          reactions := db.reactions ++ [⟨uid, pid, t⟩],
          notifs := db.notifs ++ likeRows db uid pid } uid pid =
        some ⟨uid, pid, t⟩ := by
      unfold findReaction at hfind ⊢
      rw [find?_append_none hfind]
      exact List.find?_cons_of_pos _ (by simp)
    rw [reactToPost_delete hnone1 rfl]
    show (db.reactions ++ [(⟨uid, pid, t⟩ : Reaction)]).filter
        (fun r => !(r.userId == uid && r.postId == pid)) =
      db.reactions
    rw [List.filter_append]
    have h1 : db.reactions.filter
        (fun r => !(r.userId == uid && r.postId == pid)) =
        db.reactions := by
      apply List.filter_eq_self.mpr
      intro a ha
      have h2 := List.find?_eq_none.mp hfind a ha
      rw [Bool.not_eq_true] at h2
      rw [h2]
      rfl
    have h2s : ([⟨uid, pid, t⟩] : List Reaction).filter
        (fun r => !(r.userId == uid && r.postId == pid)) = [] := by
      simp
    rw [h1, h2s, List.append_nil]

/-- Witness for C10: the toggle behaviour on dbReact with user 1 and
post 10. -/
theorem C10_reaction_toggle_witness :
    reactionPairUnique
      (reactToPost 1 10 ReactionType.LIKE dbReact).2 ∧
    findReaction (reactToPost 1 10 ReactionType.LIKE dbReact).2 1 10 =
      some (⟨1, 10, ReactionType.LIKE⟩ : Reaction) ∧
    (reactToPost 1 10 ReactionType.LIKE
        (reactToPost 1 10 ReactionType.LIKE dbReact).2).2.reactions =
      dbReact.reactions := by
  refine ⟨?_, ?_, ?_⟩
  · exact (C10_reaction_toggle dbReact 1 10 ReactionType.LIKE
      (by unfold reactionPairUnique; decide)).1
  · exact (C10_reaction_toggle dbReact 1 10 ReactionType.LIKE
      (by unfold reactionPairUnique; decide)).2.1 (by decide)
  · exact (C10_reaction_toggle dbReact 1 10 ReactionType.LIKE
      (by unfold reactionPairUnique; decide)).2.2.2.2.2 (by decide)

end LsMedia
